import Mathlib

/-
  Verification of the command-proposal and confirmation workflow of the
  Clio editor extension (src/src/extension.js).

  The JavaScript source is shallowly embedded: the pure data flow of the
  command handler registered in `activate` and of `generateCommands` is
  translated into Lean functions, and the host-visible behaviour of one
  invocation is recorded as a trace of effects.  Host facilities that the
  source calls (JS string and number primitives, Node child_process exec,
  the editor quick-pick and terminal API) are modelled at the granularity
  the source uses them.
-/

namespace Clio

/-- A command candidate as it appears in the parsed generator output:
fields `command`, `description`, `safety_level` of a JSON object. -/
structure CommandCandidate where
  command : String
  description : String
  safety_level : String
deriving DecidableEq

/-- The JSON object parsed from the generator standard output.  The source
reads exactly two fields, `error` and `commands`; an absent field is
`none` (JS `undefined`). -/
structure ParsedOutput where
  error : Option String
  commands : Option (List CommandCandidate)
deriving DecidableEq

/-- JS truthiness of `commands.error` (a string field or `undefined`):
`undefined` and the empty string are falsy, every other string truthy. -/
def jsTruthyStr : Option String → Bool
  | none => false
  | some s => !(s = "")

/-- Decimal digit character: models how JS renders one digit of a number. -/
def digitChar (d : Nat) : Char := Char.ofNat (48 + d)

/-- Decimal digits of `n`, most significant first, appended before `acc`,
computed with explicit fuel (the first argument) so that the recursion is
structural; fuel `n` is always enough. -/
def natDigitsGo : Nat → Nat → List Char → List Char
  | _, 0, acc => acc
  | 0, _ + 1, acc => acc
  | fuel + 1, n + 1, acc =>
      natDigitsGo fuel ((n + 1) / 10) (digitChar ((n + 1) % 10) :: acc)

/-- Decimal digits of a positive number, most significant first.  Models
the JS number-to-string conversion used by the template literal for the
label index. -/
def natDigits (n : Nat) : List Char := natDigitsGo n n []

/-- JS conversion of a non-negative integer to its decimal string, as in
the template literal for the display label index. -/
def jsNumToString (n : Nat) : String :=
  if n = 0 then "0" else String.mk (natDigits n)

/-- Models `label.split(sep)[0]` on a JS string: the characters before the
first occurrence of the separator. -/
def jsSplitFirst (sep : Char) (s : List Char) : List Char :=
  s.takeWhile (fun c => !(c = sep))

/-- Numeric value of a list of decimal digit characters. -/
def digitsVal (l : List Char) : Nat :=
  l.foldl (fun a c => 10 * a + (c.toNat - 48)) 0

/-- Models JS `parseInt` on the strings the source feeds it (no sign, no
leading whitespace): the value of the longest decimal-digit prefix, or
`none` (JS `NaN`) when there is none. -/
def jsParseIntNat (s : List Char) : Option Nat :=
  let ds := s.takeWhile Char.isDigit
  if ds = [] then none else some (digitsVal ds)

/-- The command line built by `generateCommands` by string interpolation:
`python "<scriptPath>" "<query>" --json-only`. -/
def buildCommandLine (scriptPath query : String) : String :=
  "python \"" ++ scriptPath ++ "\" \"" ++ query ++ "\" --json-only"

/-- The double-quote character. -/
def dq : Char := Char.ofNat 34

/-- Word splitting of the shell that Node `exec` hands the command line to,
modelled for the features the built command line uses: blanks separate
words outside double quotes, double quotes toggle quoting and are removed.
(Expansion, backslashes and single quotes are outside the model.)
`inQ` is true inside double quotes; `cur` is the current word, reversed,
or `none` when no word has started. -/
def shellWordsAux : List Char → Bool → Option (List Char) → List String
  | [], _, none => []
  | [], _, some cur => [String.mk cur.reverse]
  | c :: rest, inQ, cur =>
    if c = dq then
      shellWordsAux rest (!inQ) (some (cur.getD []))
    else if c = ' ' && !inQ then
      match cur with
      | none => shellWordsAux rest inQ none
      | some w => String.mk w.reverse :: shellWordsAux rest inQ none
    else
      shellWordsAux rest inQ (some (c :: cur.getD []))

/-- The argument vector the shell derives from a command line. -/
def shellSplit (s : String) : List String :=
  shellWordsAux s.data false none

/-- Outcome of `JSON.parse` on the generator standard output: a parsed
object, or a parse failure carrying the raw text. -/
inductive ParseOutcome where
  | ok : ParsedOutput → ParseOutcome
  | malformed : String → ParseOutcome
deriving DecidableEq

/-- What the Node `exec` callback observes of the finished process: its
exit code, the parse outcome of its standard output, and its standard
error text. -/
structure ExecResult where
  exitCode : Nat
  stdout : ParseOutcome
  stderr : String
deriving DecidableEq

/-- Rejection values of `generateCommands`: the `exec` error object passed
through for a hard process failure, or the wrapper error built when
`JSON.parse` throws. -/
inductive GenError where
  | processFailure : String → GenError
  | malformedOutput : String → GenError
deriving DecidableEq

/-- Message of a rejection value, as read by the `catch` handler. -/
def GenError.message : GenError → String
  | .processFailure m => m
  | .malformedOutput m => m

/-- Message of the Node `exec` error object for a process that exited with
a non-zero code: Node builds it from the command line and the standard
error text. -/
def execErrorMessage (cmdline stderr : String) : String :=
  "Command failed: " ++ cmdline ++ "\n" ++ stderr

/-- Embedding of `generateCommands` (extension.js lines 100-115): the
callback rejects with the `exec` error when one is present with a code
other than 1, otherwise parses standard output as JSON, resolving the
parsed object or rejecting with a parse-failure wrapper.  The `exec`
error is present exactly when the exit code is non-zero. -/
def generateCommands (cmdline : String) (r : ExecResult) : Except GenError ParsedOutput :=
  if !(r.exitCode = 0) && !(r.exitCode = 1) then
    Except.error (GenError.processFailure (execErrorMessage cmdline r.stderr))
  else
    match r.stdout with
    | ParseOutcome.ok p => Except.ok p
    | ParseOutcome.malformed raw =>
        Except.error (GenError.malformedOutput ("Failed to parse response: " ++ raw))

/-- A quick-pick entry as built by the source: `label`, `description`,
`detail`. -/
structure QuickPickItem where
  label : String
  description : String
  detail : String
deriving DecidableEq

/-- The quick-pick entry built for the candidate at 0-based position
`index` (extension.js lines 55-59): label is the 1-based index, a colon, a
blank and the literal command text; description and safety level are
secondary fields. -/
def mkItem (index : Nat) (c : CommandCandidate) : QuickPickItem :=
  { label := jsNumToString (index + 1) ++ ": " ++ c.command
    description := c.description
    detail := "Safety: " ++ c.safety_level }

/-- The display list built from the candidate list by the indexed map of
extension.js line 55. -/
def mkOptions (cmds : List CommandCandidate) : List QuickPickItem :=
  (List.enum cmds).map fun p => mkItem p.1 p.2

/-- Modelled from the spec (section 4.2 step 4): the multi-select prompt
of the host returns the picked entries in the order they are presented in
the display list, not in click order.  `picked` is the set of picked
0-based positions, given in click order; only membership matters. -/
def hostPickReturn (picked : List Nat) (options : List QuickPickItem) : List QuickPickItem :=
  ((List.enum options).filter fun p => picked.contains p.1).map Prod.snd

/-- The candidates at the picked positions, in original list order: the
reference order the spec demands for submission. -/
def selectedInOrder (picked : List Nat) (cmds : List CommandCandidate) : List CommandCandidate :=
  ((List.enum cmds).filter fun p => picked.contains p.1).map Prod.snd

/-- Resolution of one selected entry (extension.js line 78-79): parse the
leading integer of the text before the first colon of the label, subtract
one, and index the original candidate list.  `none` models the JS paths
that would throw (`NaN` index or out-of-range index giving `undefined`). -/
def resolveSelected (cmds : List CommandCandidate) (item : QuickPickItem) : Option CommandCandidate :=
  match jsParseIntNat (jsSplitFirst ':' item.label.data) with
  | none => none
  | some n => if n = 0 then none else cmds.get? (n - 1)

/-- Observable effects of one invocation of the command handler, in
order. -/
inductive Effect where
  | runGenerator : String → Effect
  | showInfo : String → Effect
  | showError : String → Effect
  | createTerminal : String → Effect
  | showTerminal : Effect
  | showQuickPick : List QuickPickItem → Effect
  | sendText : String → Effect
deriving DecidableEq

/-- The error notice produced when resolving a selected entry throws in JS
(reading field `command` of `undefined`); caught by the handler and shown
as an error message.  Unreachable for labels the host hands back. -/
def typeErrorNotice : Effect := Effect.showError "Error: TypeError"

/-- The submission loop (extension.js lines 77-80): resolve each selected
entry and send its literal command text to the terminal; a resolution
failure throws, ending the loop with the caught-error notice. -/
def sendSelected (cmds : List CommandCandidate) : List QuickPickItem → List Effect
  | [] => []
  | item :: rest =>
    match resolveSelected cmds item with
    | some c => Effect.sendText c.command :: sendSelected cmds rest
    | none => [typeErrorNotice]

/-- The host-supplied inputs one invocation consumes after the query: the
observed result of the generator process, whether a terminal is already
active in the window, and the multi-select answer (`none` is dismissal;
positions are the picked 0-based indices in click order). -/
structure HostEnv where
  execResult : ExecResult
  hasActiveTerminal : Bool
  picked : Option (List Nat)
deriving DecidableEq

/-- Embedding of the `clio.executeCommand` handler registered in
`activate` (extension.js lines 15-85) as the trace of effects of one
invocation.  `input` is the input-box answer (`none` is dismissal; the JS
guard `if (!query) return` also stops the empty string). -/
def runWorkflow (scriptPath : String) (input : Option String) (env : HostEnv) : List Effect :=
  match input with
  | none => []
  | some query =>
    if query = "" then []
    else
      let cmdline := buildCommandLine scriptPath query
      Effect.runGenerator cmdline ::
        match generateCommands cmdline env.execResult with
        | Except.error e => [Effect.showError ("Error: " ++ e.message)]
        | Except.ok parsed =>
          if parsed.error = some "No Command Found" then
            [Effect.showInfo "No Command Found"]
          else if jsTruthyStr parsed.error then
            [Effect.showError ("Error: " ++ parsed.error.getD "")]
          else
            match parsed.commands with
            | none => [Effect.showInfo "No commands generated"]
            | some cmds =>
              if cmds.length = 0 then [Effect.showInfo "No commands generated"]
              else
                let options := mkOptions cmds
                (if env.hasActiveTerminal then [] else [Effect.createTerminal "AI CLI"]) ++
                  Effect.showTerminal :: Effect.showQuickPick options ::
                    match env.picked with
                    | none => []
                    | some picked =>
                      let items := hostPickReturn picked options
                      if items.length = 0 then [] else sendSelected cmds items

/-- Host terminal state of one editor window, for the cross-invocation
session claim.  Modelled from the spec (sections 3 and 5) and the host
API: `activeTerminal` is the terminal that most recently had focus, or
`none` when no terminal is open; `created` records the terminals the
extension has created. -/
structure TermState where
  activeTerminal : Option Nat
  nextId : Nat
  created : List Nat
deriving DecidableEq

/-- Terminal acquisition of one invocation (extension.js lines 61-66):
reuse the active terminal when there is one, otherwise create one; the
following `show()` gives the handle focus, so it becomes the active
terminal of the window.  Returns the handle the invocation uses. -/
def acquireTerminal (s : TermState) : Nat × TermState :=
  match s.activeTerminal with
  | some t => (t, s)
  | none =>
      (s.nextId,
       { activeTerminal := some s.nextId
         nextId := s.nextId + 1
         created := s.created ++ [s.nextId] })

/-- A run of `n` consecutive invocations that all reach the terminal
acquisition step, with no user terminal action in between: the handles
used, in order, and the final state. -/
def runInvocations : Nat → TermState → List Nat × TermState
  | 0, s => ([], s)
  | n + 1, s =>
    let p := acquireTerminal s
    let q := runInvocations n p.2
    (p.1 :: q.1, q.2)

theorem natDigitsGo_append (n : Nat) :
    ∀ (f : Nat) (acc : List Char), n ≤ f → natDigitsGo f n acc = natDigits n ++ acc := by
  induction n using Nat.strong_induction_on with
  | _ n ih =>
    intro f acc hf
    match n, f with
    | 0, f => simp [natDigitsGo, natDigits]
    | m + 1, 0 => exact absurd hf (by omega)
    | m + 1, g + 1 =>
      have hq : (m + 1) / 10 < m + 1 := Nat.div_lt_self (Nat.succ_pos m) (by norm_num)
      show natDigitsGo g ((m + 1) / 10) (digitChar ((m + 1) % 10) :: acc) =
        natDigitsGo (m + 1) (m + 1) [] ++ acc
      rw [ih _ hq _ _ (by omega)]
      rw [natDigitsGo, ih _ hq _ _ (by omega)]
      simp

theorem natDigits_succ (m : Nat) :
    natDigits (m + 1) = natDigits ((m + 1) / 10) ++ [digitChar ((m + 1) % 10)] := by
  have hq : (m + 1) / 10 < m + 1 := Nat.div_lt_self (Nat.succ_pos m) (by norm_num)
  show natDigitsGo (m + 1) (m + 1) [] = _
  rw [natDigitsGo]
  exact natDigitsGo_append _ _ _ (by omega)

theorem digitChar_isDigit {d : Nat} (h : d < 10) : (digitChar d).isDigit = true := by
  interval_cases d <;> decide

theorem digitChar_toNat {d : Nat} (h : d < 10) : (digitChar d).toNat = 48 + d := by
  interval_cases d <;> decide

theorem isDigit_ne_colon {c : Char} (h : c.isDigit = true) : (!(c = ':')) = true := by
  by_cases hc : c = ':'
  · subst hc
    simp at h
  · simp [hc]

theorem mem_natDigits_isDigit (n : Nat) :
    ∀ c ∈ natDigits n, c.isDigit = true := by
  induction n using Nat.strong_induction_on with
  | _ n ih =>
    intro c hc
    match n with
    | 0 => simp [natDigits, natDigitsGo] at hc
    | m + 1 =>
      have hlt : (m + 1) / 10 < m + 1 := Nat.div_lt_self (Nat.succ_pos m) (by norm_num)
      rw [natDigits_succ] at hc
      rcases List.mem_append.mp hc with h1 | h2
      · exact ih _ hlt c h1
      · have : c = digitChar ((m + 1) % 10) := by simpa using h2
        subst this
        exact digitChar_isDigit (Nat.mod_lt _ (by norm_num))

theorem digitsVal_natDigits (n : Nat) : digitsVal (natDigits n) = n := by
  induction n using Nat.strong_induction_on with
  | _ n ih =>
    match n with
    | 0 => simp [natDigits, natDigitsGo, digitsVal]
    | m + 1 =>
      have hlt : (m + 1) / 10 < m + 1 := Nat.div_lt_self (Nat.succ_pos m) (by norm_num)
      rw [natDigits_succ]
      have hmod : (m + 1) % 10 < 10 := Nat.mod_lt _ (by norm_num)
      rw [digitsVal, List.foldl_append]
      have hval : List.foldl (fun a c => 10 * a + (c.toNat - 48)) 0 (natDigits ((m + 1) / 10)) = (m + 1) / 10 := ih _ hlt
      rw [hval]
      simp only [List.foldl_cons, List.foldl_nil, digitChar_toNat hmod]
      omega

theorem natDigits_ne_nil {n : Nat} (h : n ≠ 0) : natDigits n ≠ [] := by
  match n with
  | 0 => exact absurd rfl h
  | m + 1 =>
    rw [natDigits_succ]
    simp

theorem mkItem_label_data (i : Nat) (c : CommandCandidate) :
    (mkItem i c).label.data = natDigits (i + 1) ++ ':' :: ' ' :: c.command.data := by
  show (jsNumToString (i + 1) ++ ": " ++ c.command).data = _
  rw [String.data_append, String.data_append]
  have h1 : (jsNumToString (i + 1)).data = natDigits (i + 1) := by
    rw [jsNumToString]
    simp
  rw [h1]
  simp

theorem jsParseIntNat_natDigits (n : Nat) (h : n ≠ 0) :
    jsParseIntNat (natDigits n) = some n := by
  rw [jsParseIntNat]
  have hall : List.takeWhile Char.isDigit (natDigits n) = natDigits n :=
    List.takeWhile_eq_self_iff.mpr (by simpa using mem_natDigits_isDigit n)
  simp only [hall]
  rw [if_neg (natDigits_ne_nil h)]
  exact congrArg some (digitsVal_natDigits n)

theorem jsSplitFirst_label (i : Nat) (c : CommandCandidate) :
    jsSplitFirst ':' (mkItem i c).label.data = natDigits (i + 1) := by
  rw [mkItem_label_data, jsSplitFirst]
  rw [List.takeWhile_append_of_pos
    (fun a ha => isDigit_ne_colon (mem_natDigits_isDigit (i + 1) a ha))]
  simp

theorem resolveSelected_mkItem {cmds : List CommandCandidate} {i : Nat}
    {c : CommandCandidate} (h : cmds.get? i = some c) :
    resolveSelected cmds (mkItem i c) = some c := by
  rw [resolveSelected, jsSplitFirst_label, jsParseIntNat_natDigits (i + 1) (Nat.succ_ne_zero i)]
  have h' : cmds[i]? = some c := by simpa [List.get?_eq_getElem?] using h
  simp [h']

theorem sendSelected_pairs (cmds : List CommandCandidate) :
    ∀ pairs : List (Nat × CommandCandidate),
      (∀ p ∈ pairs, cmds.get? p.1 = some p.2) →
      sendSelected cmds (pairs.map fun p => mkItem p.1 p.2) =
        pairs.map fun p => Effect.sendText p.2.command := by
  intro pairs
  induction pairs with
  | nil => intro _; simp [sendSelected]
  | cons p rest ih =>
    intro hall
    have hp : cmds.get? p.1 = some p.2 := hall p (by simp)
    simp only [List.map_cons, sendSelected, resolveSelected_mkItem hp]
    rw [ih (fun q hq => hall q (by simp [hq]))]

theorem enumFrom_map_enumFrom {α β : Type} (g : Nat → α → β) :
    ∀ (l : List α) (n : Nat),
      List.enumFrom n ((List.enumFrom n l).map fun p => g p.1 p.2) =
        (List.enumFrom n l).map fun p => (p.1, g p.1 p.2) := by
  intro l
  induction l with
  | nil => intro n; rfl
  | cons a l ih =>
    intro n
    simp only [List.enumFrom, List.map_cons]
    rw [ih (n + 1)]

theorem hostPickReturn_mkOptions (picked : List Nat) (cmds : List CommandCandidate) :
    hostPickReturn picked (mkOptions cmds) =
      ((List.enum cmds).filter fun p => picked.contains p.1).map fun p => mkItem p.1 p.2 := by
  rw [hostPickReturn, mkOptions]
  simp only [List.enum]
  rw [enumFrom_map_enumFrom (fun i c => mkItem i c) cmds 0]
  rw [List.filter_map, List.map_map]
  rfl

theorem mem_enum_get? {p : Nat × CommandCandidate} {cmds : List CommandCandidate}
    (h : p ∈ List.enum cmds) : cmds.get? p.1 = some p.2 := by
  rw [List.get?_eq_getElem?]
  exact List.mem_enum_iff_getElem?.mp h

/-- C1: for every candidate list and every position `i` holding candidate
`c`, the display entry at position `i` carries the label made of the
1-based index, a colon, a blank and the literal command text, resolving
that entry by parsing the leading integer of its label yields back exactly
`c`, and submitting it sends exactly the text of the command of `c` —
whatever the list length and whatever colons or digits the command text
contains. -/
theorem claimC1_label_roundtrip (cmds : List CommandCandidate) (i : Nat)
    (c : CommandCandidate) (h : cmds.get? i = some c) :
    (mkOptions cmds).get? i = some (mkItem i c) ∧
      (mkItem i c).label = jsNumToString (i + 1) ++ ": " ++ c.command ∧
      resolveSelected cmds (mkItem i c) = some c ∧
      sendSelected cmds [mkItem i c] = [Effect.sendText c.command] := by
  refine ⟨?_, rfl, resolveSelected_mkItem h, ?_⟩
  · rw [mkOptions, List.get?_eq_getElem?, List.getElem?_map, List.getElem?_enum]
    rw [List.get?_eq_getElem?] at h
    simp [h]
  · simp [sendSelected, resolveSelected_mkItem h]

theorem claimC1_label_roundtrip_witness :
    ([⟨"echo a:b", "d", "safe"⟩, ⟨"git log 2:1", "e", "caution"⟩] :
        List CommandCandidate).get? 1 = some ⟨"git log 2:1", "e", "caution"⟩ ∧
      ((mkOptions [⟨"echo a:b", "d", "safe"⟩, ⟨"git log 2:1", "e", "caution"⟩]).get? 1 =
          some (mkItem 1 ⟨"git log 2:1", "e", "caution"⟩) ∧
        (mkItem 1 (⟨"git log 2:1", "e", "caution"⟩ : CommandCandidate)).label =
          jsNumToString 2 ++ ": " ++ "git log 2:1" ∧
        resolveSelected [⟨"echo a:b", "d", "safe"⟩, ⟨"git log 2:1", "e", "caution"⟩]
            (mkItem 1 ⟨"git log 2:1", "e", "caution"⟩) =
          some ⟨"git log 2:1", "e", "caution"⟩ ∧
        sendSelected [⟨"echo a:b", "d", "safe"⟩, ⟨"git log 2:1", "e", "caution"⟩]
            [mkItem 1 ⟨"git log 2:1", "e", "caution"⟩] =
          [Effect.sendText "git log 2:1"]) :=
  ⟨rfl, claimC1_label_roundtrip _ 1 _ rfl⟩

/-- C8: for every candidate list and every picked set of positions (in
any click order), the commands submitted to the shell are exactly the
picked candidates in the order they appear in the original candidate
list, each submission sending the literal command text of its
candidate. -/
theorem claimC8_submission_order (cmds : List CommandCandidate) (picked : List Nat) :
    sendSelected cmds (hostPickReturn picked (mkOptions cmds)) =
      (selectedInOrder picked cmds).map fun c => Effect.sendText c.command := by
  rw [hostPickReturn_mkOptions, selectedInOrder, List.map_map]
  rw [sendSelected_pairs cmds _ ?_]
  · rfl
  · intro p hp
    exact mem_enum_get? (List.mem_of_mem_filter hp)

theorem hostPickReturn_nil (options : List QuickPickItem) :
    hostPickReturn [] options = [] := by
  simp [hostPickReturn, List.contains]

theorem runWorkflow_empty_pick (sp : String) (input : Option String) (er : ExecResult)
    (hat : Bool) :
    runWorkflow sp input ⟨er, hat, some []⟩ = runWorkflow sp input ⟨er, hat, none⟩ := by
  rcases input with _ | q
  · rfl
  · by_cases hq : q = ""
    · simp [runWorkflow, hq]
    · rcases hg : generateCommands (buildCommandLine sp q) er with e | parsed
      · simp [runWorkflow, hq, hg]
      · by_cases hs : parsed.error = some "No Command Found"
        · simp [runWorkflow, hq, hg, hs]
        · by_cases ht : jsTruthyStr parsed.error
          · simp [runWorkflow, hq, hg, hs, ht]
          · rcases hc : parsed.commands with _ | cmds
            · simp [runWorkflow, hq, hg, hs, ht, hc]
            · by_cases hlen : cmds.length = 0
              · simp [runWorkflow, hq, hg, hs, ht, hc, hlen]
              · simp [runWorkflow, hq, hg, hs, ht, hc, hlen, hostPickReturn_nil]

theorem runWorkflow_no_send (sp : String) (input : Option String) (er : ExecResult)
    (hat : Bool) (s : String) :
    Effect.sendText s ∉ runWorkflow sp input ⟨er, hat, none⟩ := by
  rcases input with _ | q
  · simp [runWorkflow]
  · by_cases hq : q = ""
    · simp [runWorkflow, hq]
    · rcases hg : generateCommands (buildCommandLine sp q) er with e | parsed
      · simp [runWorkflow, hq, hg]
      · by_cases hs : parsed.error = some "No Command Found"
        · simp [runWorkflow, hq, hg, hs]
        · by_cases ht : jsTruthyStr parsed.error
          · simp [runWorkflow, hq, hg, hs, ht]
          · rcases hc : parsed.commands with _ | cmds
            · simp [runWorkflow, hq, hg, hs, ht, hc]
            · by_cases hlen : cmds.length = 0
              · simp [runWorkflow, hq, hg, hs, ht, hc, hlen]
              · cases hat <;> simp [runWorkflow, hq, hg, hs, ht, hc, hlen]

theorem runInvocations_active (n : Nat) :
    ∀ (s : TermState) (t : Nat), s.activeTerminal = some t →
      runInvocations n s = (List.replicate n t, s) := by
  induction n with
  | zero =>
    intro s t h
    rfl
  | succ m ih =>
    intro s t h
    have ha : acquireTerminal s = (t, s) := by
      simp [acquireTerminal, h]
    simp [runInvocations, ha, ih s t h, List.replicate_succ]

/-- C2: evidence of the quoting bug — the command line is built by naive
string interpolation of the query between double quotes, so a query that
itself contains double quotes is split by the shell: for the query
consisting of `a`, a double quote, a blank, a double quote and `b`, the
generator is called with the two arguments `a` and `b` instead of the one
raw query string. -/
theorem claimC2_quote_breaks_argument :
    shellSplit (buildCommandLine "clio.py" "a\" \"b") =
        ["python", "clio.py", "a", "b", "--json-only"] ∧
      ¬ shellSplit (buildCommandLine "clio.py" "a\" \"b") =
          ["python", "clio.py", "a\" \"b", "--json-only"] := by
  constructor
  · decide
  · decide

/-- C3: whenever the parsed generator output carries the sentinel error
string, whatever its other fields and whether the exit code was 0 or 1,
the invocation shows exactly the informational notice of the sentinel
after running the generator: no error notice, no prompt, no terminal
action and no shell submission. -/
theorem claimC3_sentinel_is_empty (sp q : String) (hq : ¬ q = "") (p : ParsedOutput)
    (stderr : String) (ec : Nat) (hec : ec = 0 ∨ ec = 1)
    (he : p.error = some "No Command Found") (hat : Bool) (picks : Option (List Nat)) :
    runWorkflow sp (some q) ⟨⟨ec, ParseOutcome.ok p, stderr⟩, hat, picks⟩ =
      [Effect.runGenerator (buildCommandLine sp q), Effect.showInfo "No Command Found"] := by
  rcases hec with h | h <;> subst h <;>
    simp [runWorkflow, generateCommands, hq, he]

theorem claimC3_sentinel_is_empty_witness :
    runWorkflow "clio.py" (some "list files")
        ⟨⟨1, ParseOutcome.ok
            ⟨some "No Command Found", some [⟨"ls", "list", "safe"⟩]⟩, "warn"⟩,
          false, some [0]⟩ =
      [Effect.runGenerator (buildCommandLine "clio.py" "list files"),
        Effect.showInfo "No Command Found"] :=
  claimC3_sentinel_is_empty "clio.py" "list files" (by decide) _ "warn" 1 (Or.inr rfl)
    rfl false (some [0])

/-- C4: exit code 1 of the generator is non-fatal — `generateCommands`
gives the same result as for exit code 0, the standard output still being
parsed — while for any other non-zero exit code the invocation surfaces
exactly the process-failure notice carrying the Node error message built
from the command line and the diagnostic standard error text, and no
prompt, terminal action or submission happens. -/
theorem claimC4_exit_code_handling (cl : String) (stdout : ParseOutcome)
    (stderr : String) (sp q : String) (hq : ¬ q = "") (ec : Nat) (hec0 : ¬ ec = 0)
    (hec1 : ¬ ec = 1) (hat : Bool) (picks : Option (List Nat)) :
    generateCommands cl ⟨1, stdout, stderr⟩ = generateCommands cl ⟨0, stdout, stderr⟩ ∧
      runWorkflow sp (some q) ⟨⟨ec, stdout, stderr⟩, hat, picks⟩ =
        [Effect.runGenerator (buildCommandLine sp q),
          Effect.showError ("Error: " ++ execErrorMessage (buildCommandLine sp q) stderr)] := by
  constructor
  · simp [generateCommands]
  · simp [runWorkflow, generateCommands, hq, hec0, hec1, GenError.message]

theorem claimC4_exit_code_handling_witness :
    (generateCommands "x" ⟨1, ParseOutcome.malformed "raw", "network timeout"⟩ =
        generateCommands "x" ⟨0, ParseOutcome.malformed "raw", "network timeout"⟩) ∧
      runWorkflow "clio.py" (some "ping")
          ⟨⟨2, ParseOutcome.malformed "raw", "network timeout"⟩, true, none⟩ =
        [Effect.runGenerator (buildCommandLine "clio.py" "ping"),
          Effect.showError
            ("Error: " ++ execErrorMessage (buildCommandLine "clio.py" "ping")
              "network timeout")] :=
  claimC4_exit_code_handling "x" (ParseOutcome.malformed "raw") "network timeout"
    "clio.py" "ping" (by decide) 2 (by decide) (by decide) true none

/-- C5: counterexample — a whitespace-only input (one blank), which is
empty after trimming, is not rejected by the guard: the workflow invokes
the external generator with it, spawning the process. -/
theorem claimC5_counterexample :
    (" ").data.all Char.isWhitespace = true ∧
      Effect.runGenerator (buildCommandLine "clio.py" " ") ∈
        runWorkflow "clio.py" (some " ")
          ⟨⟨0, ParseOutcome.ok ⟨none, none⟩, ""⟩, true, none⟩ := by
  constructor
  · decide
  · decide

/-- C5 (amended): for a cancelled input box or input equal to the empty
string the workflow produces no effects at all — in particular the
generator process is never spawned.  (Whitespace-only input, though empty
after trimming, is passed on to the generator.) -/
theorem claimC5_empty_input_aborts (sp : String) (input : Option String) (env : HostEnv)
    (h : input = none ∨ input = some "") : runWorkflow sp input env = [] := by
  rcases h with h | h <;> subst h
  · rfl
  · simp [runWorkflow]

theorem claimC5_empty_input_aborts_witness :
    runWorkflow "clio.py" (some "")
        ⟨⟨0, ParseOutcome.ok ⟨none, none⟩, ""⟩, true, none⟩ = [] :=
  claimC5_empty_input_aborts "clio.py" (some "")
    ⟨⟨0, ParseOutcome.ok ⟨none, none⟩, ""⟩, true, none⟩ (Or.inr rfl)

/-- C6: counterexample — a parsed output whose error field is the empty
string is not treated as a failure: no error notice is shown at all; the
empty-string error is skipped (JS falsiness) and the workflow goes on to
the candidate list and the prompt. -/
theorem claimC6_counterexample :
    runWorkflow "clio.py" (some "q")
        ⟨⟨0, ParseOutcome.ok ⟨some "", some [⟨"ls", "l", "safe"⟩]⟩, ""⟩, true, none⟩ =
      [Effect.runGenerator (buildCommandLine "clio.py" "q"), Effect.showTerminal,
        Effect.showQuickPick [⟨"1: ls", "l", "Safety: safe"⟩]] := by
  decide

/-- C6 (amended): for a parsed output whose error field is present,
non-empty and different from the sentinel, the invocation shows exactly
the error notice with the message embedded verbatim (no truncation, no
mutation), and nothing else happens.  An empty-string error field is
falsy in JS and is handled as if no error field were present. -/
theorem claimC6_error_is_failure (sp q : String) (hq : ¬ q = "") (msg : String)
    (hmsg : ¬ msg = "") (hsen : ¬ msg = "No Command Found")
    (cs : Option (List CommandCandidate)) (stderr : String) (hat : Bool)
    (picks : Option (List Nat)) :
    runWorkflow sp (some q) ⟨⟨0, ParseOutcome.ok ⟨some msg, cs⟩, stderr⟩, hat, picks⟩ =
      [Effect.runGenerator (buildCommandLine sp q), Effect.showError ("Error: " ++ msg)] := by
  simp [runWorkflow, generateCommands, hq, hsen, jsTruthyStr, hmsg]

theorem claimC6_error_is_failure_witness :
    runWorkflow "clio.py" (some "q")
        ⟨⟨0, ParseOutcome.ok ⟨some "auth failed", none⟩, ""⟩, true, none⟩ =
      [Effect.runGenerator (buildCommandLine "clio.py" "q"),
        Effect.showError ("Error: " ++ "auth failed")] :=
  claimC6_error_is_failure "clio.py" "q" (by decide) "auth failed" (by decide)
    (by decide) none "" true none

/-- C7: whenever the multi-select answer is a dismissal or an empty
selection — and for a dismissed input box, where the trace is empty —
no command is ever submitted to the shell session, and the zero-item
answer produces exactly the same trace as the dismissal answer, so
selecting zero items is equivalent to cancelling. -/
theorem claimC7_cancel_no_submission (sp : String) (input : Option String) (env : HostEnv)
    (h : env.picked = none ∨ env.picked = some []) :
    (∀ s, Effect.sendText s ∉ runWorkflow sp input env) ∧
      runWorkflow sp input ⟨env.execResult, env.hasActiveTerminal, some []⟩ =
        runWorkflow sp input ⟨env.execResult, env.hasActiveTerminal, none⟩ := by
  obtain ⟨er, hat, pk⟩ := env
  rcases h with h | h <;> simp only at h <;> subst h
  · exact ⟨fun s => runWorkflow_no_send sp input er hat s,
      runWorkflow_empty_pick sp input er hat⟩
  · refine ⟨fun s hmem => ?_, runWorkflow_empty_pick sp input er hat⟩
    rw [runWorkflow_empty_pick] at hmem
    exact runWorkflow_no_send sp input er hat s hmem

theorem claimC7_cancel_no_submission_witness :
    (Effect.sendText "ls" ∉
        runWorkflow "clio.py" (some "q")
          ⟨⟨0, ParseOutcome.ok ⟨none, some [⟨"ls", "l", "safe"⟩]⟩, ""⟩, true, some []⟩) ∧
      runWorkflow "clio.py" (some "q")
          ⟨⟨0, ParseOutcome.ok ⟨none, some [⟨"ls", "l", "safe"⟩]⟩, ""⟩, true, some []⟩ =
        runWorkflow "clio.py" (some "q")
          ⟨⟨0, ParseOutcome.ok ⟨none, some [⟨"ls", "l", "safe"⟩]⟩, ""⟩, true, none⟩ :=
  ⟨(claimC7_cancel_no_submission "clio.py" (some "q")
      ⟨⟨0, ParseOutcome.ok ⟨none, some [⟨"ls", "l", "safe"⟩]⟩, ""⟩, true, some []⟩
      (Or.inr rfl)).1 "ls",
    (claimC7_cancel_no_submission "clio.py" (some "q")
      ⟨⟨0, ParseOutcome.ok ⟨none, some [⟨"ls", "l", "safe"⟩]⟩, ""⟩, true, some []⟩
      (Or.inr rfl)).2⟩

/-- C9: counterexample — for a parsed output with no error field and an
empty candidate list, the informational notice shown is the string
`No commands generated`, not `No Command Found`: the claimed notice text
never appears in the trace. -/
theorem claimC9_counterexample :
    runWorkflow "clio.py" (some "q")
        ⟨⟨0, ParseOutcome.ok ⟨none, some []⟩, ""⟩, true, none⟩ =
      [Effect.runGenerator (buildCommandLine "clio.py" "q"),
        Effect.showInfo "No commands generated"] ∧
      Effect.showInfo "No Command Found" ∉
        runWorkflow "clio.py" (some "q")
          ⟨⟨0, ParseOutcome.ok ⟨none, some []⟩, ""⟩, true, none⟩ := by
  constructor
  · decide
  · decide

/-- C9 (amended): for a parsed output whose error field is absent or
falsy (empty) and whose commands field is absent or an empty list, the
invocation shows exactly the informational notice `No commands generated`
and terminates: no prompt, no terminal action, no execution. -/
theorem claimC9_empty_commands (sp q : String) (hq : ¬ q = "") (err : Option String)
    (herr : jsTruthyStr err = false) (cs : Option (List CommandCandidate))
    (hcs : cs = none ∨ cs = some []) (stderr : String) (hat : Bool)
    (picks : Option (List Nat)) :
    runWorkflow sp (some q) ⟨⟨0, ParseOutcome.ok ⟨err, cs⟩, stderr⟩, hat, picks⟩ =
      [Effect.runGenerator (buildCommandLine sp q),
        Effect.showInfo "No commands generated"] := by
  have hsen : ¬ (err = some "No Command Found") := by
    rcases err with _ | s
    · simp
    · have hs : s = "" := by simpa [jsTruthyStr] using herr
      subst hs
      simp
  rcases hcs with h | h <;> subst h <;>
    simp [runWorkflow, generateCommands, hq, hsen, herr]

theorem claimC9_empty_commands_witness :
    runWorkflow "clio.py" (some "q")
        ⟨⟨0, ParseOutcome.ok ⟨none, some []⟩, "w"⟩, false, some [0]⟩ =
      [Effect.runGenerator (buildCommandLine "clio.py" "q"),
        Effect.showInfo "No commands generated"] :=
  claimC9_empty_commands "clio.py" "q" (by decide) none rfl (some []) (Or.inr rfl)
    "w" false (some [0])

/-- C10: across any number of consecutive invocations in one window with
no user terminal action in between, starting with no open terminal the
first invocation lazily creates the single session and every invocation
uses that same handle, the list of created terminals never exceeding one;
starting with a terminal already active, every invocation reuses that
handle and nothing is ever created. -/
theorem claimC10_single_session (n t id0 : Nat) :
    ((runInvocations n ⟨none, id0, []⟩).1 = List.replicate n id0 ∧
      (runInvocations n ⟨none, id0, []⟩).2.created.length ≤ 1) ∧
      runInvocations n ⟨some t, id0, []⟩ = (List.replicate n t, ⟨some t, id0, []⟩) := by
  refine ⟨?_, runInvocations_active n _ t rfl⟩
  match n with
  | 0 => simp [runInvocations]
  | m + 1 =>
    have ha : acquireTerminal ⟨none, id0, []⟩ = (id0, ⟨some id0, id0 + 1, [id0]⟩) := by
      simp [acquireTerminal]
    have hr := runInvocations_active m ⟨some id0, id0 + 1, [id0]⟩ id0 rfl
    constructor
    · simp [runInvocations, ha, hr, List.replicate_succ]
    · simp [runInvocations, ha, hr]

end Clio
